import Mathlib

/-!
Verification of the photon rendering core against its specification.

The embedding models the pure parts of `src/lib.rs` and the frame/event
logic of `examples/hello_world.rs` directly in Lean.  `f32` values are
modelled as exact rationals; the one place where IEEE behaviour matters
(division by a zero window dimension, producing a non-finite float) is
modelled by an `Option ℚ`-valued division where `none` stands for a
non-finite result.
-/

namespace Photon

/-- Orientation of a single-axis pixel value (`PixelOrient` in `src/lib.rs`). -/
inductive PixelOrient where
  | Vertical
  | Horizontal
deriving DecidableEq, Repr

/-- A single-axis pixel coordinate (`Pixel` in `src/lib.rs`): a value in
pixels together with the axis it lives on. -/
structure Pixel where
  value : ℚ
  orient : PixelOrient
deriving DecidableEq, Repr

/-- Float division as performed by the Rust source: dividing by zero does
not raise an error, it yields a non-finite `f32`, modelled here as `none`. -/
def fdiv (a b : ℚ) : Option ℚ :=
  if b = 0 then none else some (a / b)

/-- `Pixel::to_ndc` from `src/lib.rs` (lines 95-104): the Horizontal branch
computes `(value * 2.0) / window_size.0 - 1.0`, the Vertical branch computes
`(value * 2.0) / window_size.1` with no shift and no flip.  There is no
guard on the window dimensions; a zero divisor flows through as a
non-finite float (`none`). -/
def Pixel.to_ndc (p : Pixel) (window_size : ℚ × ℚ) : Option ℚ :=
  match p.orient with
  | PixelOrient.Horizontal => (fdiv (p.value * 2) window_size.1).map (fun q => q - 1)
  | PixelOrient.Vertical => fdiv (p.value * 2) window_size.2

/-- Modelled from the spec: the two-axis form of `Pixel.to_ndc`
(`ndc_x = (x*2/width) - 1`, `ndc_y = 1 - (y*2/height)`).  This form is
described in the spec (§4.1) but is not present under `src/`; only the
single-axis `Pixel` exists there. -/
structure Pixel2 where
  x : ℚ
  y : ℚ
deriving DecidableEq, Repr

/-- Modelled from the spec: two-axis conversion from top-left-origin pixel
space to bottom-up NDC, using the same non-finite-on-zero division model as
the single-axis form. -/
def Pixel2.to_ndc (p : Pixel2) (window_size : ℚ × ℚ) : Option Pixel2 :=
  match fdiv (p.x * 2) window_size.1, fdiv (p.y * 2) window_size.2 with
  | some qx, some qy => some ⟨qx - 1, 1 - qy⟩
  | _, _ => none

/-- Shape kind (`ShapeType` in `src/lib.rs`). -/
inductive ShapeType where
  | Rectangle
  | Circle
deriving DecidableEq, Repr

/-- The packed shape record (`Shape` in `src/lib.rs`): tag, position, size,
radius, colour. -/
structure Shape where
  shape_type : ℕ
  position : ℚ × ℚ
  size : ℚ × ℚ
  radius : ℚ
  color : ℚ × ℚ × ℚ × ℚ
deriving DecidableEq, Repr

/-- `Shape::new` from `src/lib.rs` (lines 135-154): packs the kind into an
integer tag (`Rectangle ↦ 0`, `Circle ↦ 1`) and copies every other field
unvalidated. -/
def Shape.new (size : ℚ × ℚ) (position : ℚ × ℚ) (color : ℚ × ℚ × ℚ × ℚ)
    (radius : ℚ) (shape_type : ShapeType) : Shape :=
  let shape_type_index : ℕ :=
    match shape_type with
    | ShapeType.Rectangle => 0
    | ShapeType.Circle => 1
  { shape_type := shape_type_index
    position := position
    size := size
    radius := radius
    color := color }

/-- Modelled from the spec: decoding a packed shape tag back to its
`ShapeType` (the spec's round-trip property, §8); no decoder exists under
`src/`, so the inverse of the packing in `Shape::new` is taken. -/
def decodeShapeTag (tag : ℕ) : Option ShapeType :=
  match tag with
  | 0 => some ShapeType.Rectangle
  | 1 => some ShapeType.Circle
  | _ => none

/-- A texture format as the surface-capability query reports it: an opaque
identifier plus its `is_srgb()` flag. -/
structure TextureFormat where
  id : ℕ
  is_srgb : Bool
deriving DecidableEq, Repr

/-- Present modes offered by wgpu. -/
inductive PresentMode where
  | Fifo
  | FifoRelaxed
  | Immediate
  | Mailbox
deriving DecidableEq, Repr

/-- The capabilities `surface.get_capabilities(&adapter)` reports: the
supported formats and present modes, in the order the backend lists them. -/
structure SurfaceCapabilities where
  formats : List TextureFormat
  present_modes : List PresentMode
deriving DecidableEq, Repr

/-- The surface configuration built in `examples/hello_world.rs` `run`
(lines 69-77); usage and alpha mode are constants there and carry no
information for the claims. -/
structure SurfaceConfiguration where
  format : TextureFormat
  width : ℕ
  height : ℕ
  present_mode : PresentMode
deriving DecidableEq, Repr

/-- Format selection from `examples/hello_world.rs` (lines 62-68):
`formats.iter().copied().find(|f| f.is_srgb()).unwrap_or(formats[0])`.
The `unwrap_or(formats[0])` indexing panics on an empty list, modelled by
`none`. -/
def chooseSurfaceFormat (formats : List TextureFormat) : Option TextureFormat :=
  match formats.find? (fun f => f.is_srgb) with
  | some f => some f
  | none => formats.head?

/-- Construction of the initial `SurfaceConfiguration` in
`examples/hello_world.rs` `run` (lines 62-78): the format is chosen by
`chooseSurfaceFormat`, the size is the current window size, and the present
mode is the literal `wgpu::PresentMode::Fifo` — the capability list of
present modes is never consulted. -/
def buildSurfaceConfig (caps : SurfaceCapabilities) (size : ℕ × ℕ) :
    Option SurfaceConfiguration :=
  (chooseSurfaceFormat caps.formats).map fun fmt =>
    { format := fmt
      width := size.1
      height := size.2
      present_mode := PresentMode.Fifo }

/-- The `WindowEvent::Resized(_)` / `ScaleFactorChanged` arms of the event
loop in `examples/hello_world.rs` (lines 101-112).  `size` is the window
size captured once before the loop; the event's payload is matched with `_`
and discarded.  The handler sets `config.width = size.width.max(1)`,
`config.height = size.height.max(1)` and always reconfigures the surface.
Returns the new config and whether `surface.configure` was called. -/
def handleResized (size : ℕ × ℕ) (config : SurfaceConfiguration)
    (_new_size : ℕ × ℕ) : SurfaceConfiguration × Bool :=
  ({ config with width := max size.1 1, height := max size.2 1 }, true)

/-- A colour operation of a render-pass colour attachment: clear colour and
whether the result is stored. -/
structure ColorOps where
  clear : ℚ × ℚ × ℚ × ℚ
  store : Bool
deriving DecidableEq, Repr

/-- The render-pass descriptor built in `examples/hello_world.rs` `render`
(lines 32-44): one colour attachment against a texture view, clear-then-
store.  Texture views are identified by the id of the acquired texture. -/
structure RenderPassDescriptor where
  colorTarget : ℕ
  ops : ColorOps
deriving DecidableEq, Repr

/-- A command recorded inside a render pass. -/
inductive PassCmd where
  | setPipeline (pipeline : ℕ)
  | draw (vertexRange : ℕ × ℕ) (instanceRange : ℕ × ℕ)
deriving DecidableEq, Repr

/-- An in-flight render pass: its descriptor and the commands recorded so
far, in order. -/
structure RenderPass where
  desc : RenderPassDescriptor
  cmds : List PassCmd
deriving DecidableEq, Repr

/-- A command encoder: the render passes finished on it so far. -/
structure CommandEncoder where
  finishedPasses : List (RenderPassDescriptor × List PassCmd)
deriving DecidableEq, Repr

/-- A finished command buffer (`encoder.finish()`). -/
structure CommandBuffer where
  passes : List (RenderPassDescriptor × List PassCmd)
deriving DecidableEq, Repr

/-- `device.create_command_encoder`: a fresh encoder with nothing recorded. -/
def createCommandEncoder : CommandEncoder := ⟨[]⟩

/-- `encoder.begin_render_pass(desc)`: opens a pass with no commands yet. -/
def CommandEncoder.begin_render_pass (_e : CommandEncoder)
    (desc : RenderPassDescriptor) : RenderPass :=
  ⟨desc, []⟩

/-- `render_pass.set_pipeline(p)`: records a pipeline bind. -/
def RenderPass.set_pipeline (rp : RenderPass) (pipeline : ℕ) : RenderPass :=
  ⟨rp.desc, rp.cmds ++ [PassCmd.setPipeline pipeline]⟩

/-- `render_pass.draw(vertices, instances)`: records a draw over the given
vertex and instance ranges. -/
def RenderPass.draw (rp : RenderPass) (vertexRange instanceRange : ℕ × ℕ) :
    RenderPass :=
  ⟨rp.desc, rp.cmds ++ [PassCmd.draw vertexRange instanceRange]⟩

/-- `drop(render_pass)`: ends the pass, writing it back into the encoder. -/
def CommandEncoder.endPass (e : CommandEncoder) (rp : RenderPass) :
    CommandEncoder :=
  ⟨e.finishedPasses ++ [(rp.desc, rp.cmds)]⟩

/-- `encoder.finish()`: seals the encoder into a command buffer. -/
def CommandEncoder.finish (e : CommandEncoder) : CommandBuffer :=
  ⟨e.finishedPasses⟩

/-- The command queue: the buffers submitted to it, in order. -/
structure Queue where
  submitted : List CommandBuffer
deriving DecidableEq, Repr

/-- `queue.submit(iter)`: appends the finished buffers to the queue. -/
def Queue.submit (q : Queue) (buffers : List CommandBuffer) : Queue :=
  ⟨q.submitted ++ buffers⟩

/-- The `Photon` struct from `src/lib.rs`: the pipeline handle and the
queue (the device handle plays no role in the modelled behaviour). -/
structure PhotonState where
  render_pipeline : ℕ
  queue : Queue
deriving DecidableEq, Repr

/-- `Photon::render_encode` from `src/lib.rs` (lines 227-243): creates an
encoder, begins one render pass from the supplied descriptor, binds the
fixed pipeline, draws `0..3` vertices and `0..1` instances, drops the pass
and submits the single finished buffer to the queue. -/
def PhotonState.render_encode (self : PhotonState)
    (render_pass_desc : RenderPassDescriptor) : PhotonState :=
  let encoder := createCommandEncoder
  let render_pass := encoder.begin_render_pass render_pass_desc
  let render_pass := render_pass.set_pipeline self.render_pipeline
  let render_pass := render_pass.draw (0, 3) (0, 1)
  let encoder := encoder.endPass render_pass
  { self with queue := self.queue.submit [encoder.finish] }

/-- Errors `surface.get_current_texture()` can report. -/
inductive SurfaceError where
  | Lost
  | Outdated
  | Timeout
  | OutOfMemory
deriving DecidableEq, Repr

/-- One outcome of `surface.get_current_texture()`: a texture id or an
error. -/
inductive AcquireResult where
  | ok (texture : ℕ)
  | err (e : SurfaceError)
deriving DecidableEq, Repr

/-- How one call to the example's `render` function ends: a frame is
presented (carrying the updated `PhotonState`), or the `.expect` on the
second acquisition attempt panics.  `frameFailed` is the outcome the spec
describes — a per-frame failure surfaced to the caller — which the code
never produces. -/
inductive RenderOutcome where
  | presented (texture : ℕ) (photon : PhotonState)
  | panicked
  | frameFailed
deriving DecidableEq, Repr

/-- Result of one `render` call: its outcome plus the list of configs
passed to `surface.configure` during the call, in order. -/
structure RenderTrace where
  outcome : RenderOutcome
  reconfigured : List SurfaceConfiguration
deriving DecidableEq, Repr

/-- The render-pass descriptor the example builds for an acquired frame:
view of the frame's texture, clear to `wgpu::Color::BLACK`, store. -/
def frameDesc (texture : ℕ) : RenderPassDescriptor :=
  ⟨texture, ⟨(0, 0, 0, 1), true⟩⟩

/-- The `render` function of `examples/hello_world.rs` (lines 18-49).
`acquire i` is the outcome of the `(i+1)`-th `surface.get_current_texture()`
call.  A first failure of any kind reconfigures the surface with the
current config and retries; the retry's result feeds `.expect`, which
panics on a second failure.  On success the frame's view is rendered via
`render_encode` and presented. -/
def render (acquire : ℕ → AcquireResult) (config : SurfaceConfiguration)
    (photon : PhotonState) : RenderTrace :=
  match acquire 0 with
  | AcquireResult.ok frame =>
      ⟨RenderOutcome.presented frame (photon.render_encode (frameDesc frame)), []⟩
  | AcquireResult.err _ =>
      match acquire 1 with
      | AcquireResult.ok frame =>
          ⟨RenderOutcome.presented frame (photon.render_encode (frameDesc frame)),
            [config]⟩
      | AcquireResult.err _ => ⟨RenderOutcome.panicked, [config]⟩

end Photon

namespace Photon

/-- C4: with Horizontal orientation and window width `w > 0`, `to_ndc`
returns `(v*2/w) - 1`; it maps `0 ↦ -1` and `w ↦ 1` and is strictly
monotonically increasing in the pixel value. -/
theorem C4_horizontal_to_ndc (v w h : ℚ) (hw : 0 < w) :
    Pixel.to_ndc ⟨v, PixelOrient.Horizontal⟩ (w, h) = some (v * 2 / w - 1) ∧
    Pixel.to_ndc ⟨0, PixelOrient.Horizontal⟩ (w, h) = some (-1) ∧
    Pixel.to_ndc ⟨w, PixelOrient.Horizontal⟩ (w, h) = some 1 ∧
    (∀ v₁ v₂ r₁ r₂, v₁ < v₂ →
      Pixel.to_ndc ⟨v₁, PixelOrient.Horizontal⟩ (w, h) = some r₁ →
      Pixel.to_ndc ⟨v₂, PixelOrient.Horizontal⟩ (w, h) = some r₂ → r₁ < r₂) := by
  have hw0 : w ≠ 0 := ne_of_gt hw
  refine ⟨?_, ?_, ?_, ?_⟩
  · simp [Pixel.to_ndc, fdiv, hw0]
  · simp [Pixel.to_ndc, fdiv, hw0]
  · simp only [Pixel.to_ndc, fdiv, hw0, if_neg hw0, Option.map_some']
    rw [mul_comm, mul_div_assoc, div_self hw0]
    norm_num
  · intro v₁ v₂ r₁ r₂ hlt h1 h2
    simp [Pixel.to_ndc, fdiv, hw0] at h1 h2
    rw [← h1, ← h2]
    have hdiv : v₁ * 2 / w < v₂ * 2 / w := by
      rw [div_lt_div_iff₀ hw hw]
      nlinarith
    linarith

/-- Witness for C4 at `v = 1`, `w = 2`, `h = 3`. -/
theorem C4_horizontal_to_ndc_witness :
    (0 : ℚ) < 2 ∧
      Pixel.to_ndc ⟨0, PixelOrient.Horizontal⟩ ((2 : ℚ), 3) = some (-1) :=
  ⟨by norm_num, (C4_horizontal_to_ndc 1 2 3 (by norm_num)).2.1⟩

/-- C5: the two-axis `to_ndc` (modelled from the spec; absent from `src/`)
computes `((x*2/w) - 1, 1 - (y*2/h))`, sending `(0,0)` to `(-1,1)` and
`(w,h)` to `(1,-1)` whenever `w,h > 0`. -/
theorem C5_two_axis_to_ndc (w h : ℚ) (hw : 0 < w) (hh : 0 < h) :
    (∀ x y, Pixel2.to_ndc ⟨x, y⟩ (w, h) = some ⟨x * 2 / w - 1, 1 - y * 2 / h⟩) ∧
    Pixel2.to_ndc ⟨0, 0⟩ (w, h) = some ⟨-1, 1⟩ ∧
    Pixel2.to_ndc ⟨w, h⟩ (w, h) = some ⟨1, -1⟩ := by
  have hw0 : w ≠ 0 := ne_of_gt hw
  have hh0 : h ≠ 0 := ne_of_gt hh
  have hgen : ∀ x y, Pixel2.to_ndc ⟨x, y⟩ (w, h) =
      some ⟨x * 2 / w - 1, 1 - y * 2 / h⟩ := by
    intro x y
    simp [Pixel2.to_ndc, fdiv, hw0, hh0]
  refine ⟨hgen, ?_, ?_⟩
  · rw [hgen 0 0]
    norm_num
  · rw [hgen w h]
    congr 2
    · rw [mul_comm, mul_div_assoc, div_self hw0]
      norm_num
    · rw [mul_comm, mul_div_assoc, div_self hh0]
      norm_num

/-- Witness for C5 at `w = 2`, `h = 4`. -/
theorem C5_two_axis_to_ndc_witness :
    (0 : ℚ) < 2 ∧ (0 : ℚ) < 4 ∧
      Pixel2.to_ndc ⟨0, 0⟩ ((2 : ℚ), 4) = some ⟨-1, 1⟩ :=
  ⟨by norm_num, by norm_num,
    (C5_two_axis_to_ndc 2 4 (by norm_num) (by norm_num)).2.1⟩

/-- C6: with Vertical orientation and window height `h > 0`, `to_ndc`
returns `v*2/h` — no `-1` shift and no sign flip — so `[0, h]` is mapped
onto `[0, 2]`: `0 ↦ 0`, `h ↦ 2`, values of `[0,h]` land in `[0,2]`, and
every point of `[0,2]` is hit. -/
theorem C6_vertical_to_ndc (v w h : ℚ) (hh : 0 < h) :
    Pixel.to_ndc ⟨v, PixelOrient.Vertical⟩ (w, h) = some (v * 2 / h) ∧
    Pixel.to_ndc ⟨0, PixelOrient.Vertical⟩ (w, h) = some 0 ∧
    Pixel.to_ndc ⟨h, PixelOrient.Vertical⟩ (w, h) = some 2 ∧
    (0 ≤ v → v ≤ h → 0 ≤ v * 2 / h ∧ v * 2 / h ≤ 2) ∧
    (∀ t, 0 ≤ t → t ≤ 2 → ∃ u, 0 ≤ u ∧ u ≤ h ∧
      Pixel.to_ndc ⟨u, PixelOrient.Vertical⟩ (w, h) = some t) := by
  have hh0 : h ≠ 0 := ne_of_gt hh
  have hgen : ∀ u, Pixel.to_ndc ⟨u, PixelOrient.Vertical⟩ (w, h) =
      some (u * 2 / h) := by
    intro u
    simp [Pixel.to_ndc, fdiv, hh0]
  refine ⟨hgen v, ?_, ?_, ?_, ?_⟩
  · rw [hgen 0]
    norm_num
  · rw [hgen h]
    congr 1
    rw [mul_comm, mul_div_assoc, div_self hh0]
    norm_num
  · intro h0 hvh
    constructor
    · positivity
    · rw [div_le_iff₀ hh]
      nlinarith
  · intro t ht0 ht2
    refine ⟨t * h / 2, by positivity, ?_, ?_⟩
    · rw [div_le_iff₀ (by norm_num : (0:ℚ) < 2)]
      nlinarith
    · rw [hgen (t * h / 2)]
      congr 1
      field_simp

/-- Witness for C6 at `v = 1`, `w = 5`, `h = 2`. -/
theorem C6_vertical_to_ndc_witness :
    (0 : ℚ) < 2 ∧
      Pixel.to_ndc ⟨2, PixelOrient.Vertical⟩ ((5 : ℚ), 2) = some 2 :=
  ⟨by norm_num, (C6_vertical_to_ndc 1 5 2 (by norm_num)).2.2.1⟩

/-- C7: `Pixel::to_ndc` does NOT guard against a non-positive window
dimension.  At width `0` the division is performed and produces a
non-finite float (modelled `none`), and at a negative width the conversion
silently returns an ordinary value; no `InvalidArgument` error exists in
the code (the return type is a plain float, not a result). -/
theorem C7_no_zero_guard :
    Pixel.to_ndc ⟨100, PixelOrient.Horizontal⟩ ((0 : ℚ), 600) = none ∧
    Pixel.to_ndc ⟨100, PixelOrient.Vertical⟩ ((800 : ℚ), 0) = none ∧
    Pixel.to_ndc ⟨100, PixelOrient.Horizontal⟩ ((-800 : ℚ), 600) =
      some (-5 / 4) := by
  refine ⟨rfl, rfl, ?_⟩
  norm_num [Pixel.to_ndc, fdiv]

/-- C8: `Shape::new` packs the kind injectively — `Circle ↦ 1`,
`Rectangle ↦ 0` — and the tag decodes back to the original kind for every
size, position, colour and radius. -/
theorem C8_shape_tag_roundtrip (size position : ℚ × ℚ)
    (color : ℚ × ℚ × ℚ × ℚ) (radius : ℚ) :
    (Shape.new size position color radius ShapeType.Circle).shape_type = 1 ∧
    decodeShapeTag
      (Shape.new size position color radius ShapeType.Circle).shape_type =
      some ShapeType.Circle ∧
    (Shape.new size position color radius ShapeType.Rectangle).shape_type = 0 ∧
    decodeShapeTag
      (Shape.new size position color radius ShapeType.Rectangle).shape_type =
      some ShapeType.Rectangle ∧
    (∀ k, decodeShapeTag
      (Shape.new size position color radius k).shape_type = some k) ∧
    (∀ k₁ k₂, (Shape.new size position color radius k₁).shape_type =
      (Shape.new size position color radius k₂).shape_type → k₁ = k₂) := by
  refine ⟨rfl, rfl, rfl, rfl, ?_, ?_⟩
  · intro k
    cases k <;> rfl
  · intro k₁ k₂ hk
    cases k₁ <;> cases k₂ <;> simp [Shape.new] at hk ⊢

/-- If `find?` returns an element, the list splits as a prefix of
non-matching elements, the found element, and a remainder. -/
theorem find?_first {α : Type} (p : α → Bool) :
    ∀ (l : List α) (a : α), l.find? p = some a →
      ∃ pre post, l = pre ++ a :: post ∧ p a = true ∧ ∀ x ∈ pre, p x = false := by
  intro l
  induction l with
  | nil => intro a hfind; simp at hfind
  | cons x xs ih =>
    intro a hfind
    by_cases hx : p x
    · refine ⟨[], xs, ?_, ?_, by simp⟩
      · simp only [List.find?, hx] at hfind
        simp only [Option.some.injEq] at hfind
        simp [hfind]
      · simp only [List.find?, hx] at hfind
        simp only [Option.some.injEq] at hfind
        rw [← hfind]
        exact hx
    · have hxs : xs.find? p = some a := by
        have : (x :: xs).find? p = xs.find? p := by
          simp [List.find?, hx]
        rw [← this]
        exact hfind
      obtain ⟨pre, post, heq, hpa, hpre⟩ := ih a hxs
      refine ⟨x :: pre, post, by simp [heq], hpa, ?_⟩
      intro y hy
      rcases List.mem_cons.mp hy with h | h
      · rw [h]
        exact Bool.eq_false_iff.mpr hx
      · exact hpre y h

/-- C1 fails as stated: when both acquisition attempts report the surface
lost, the example's `render` panics at the `.expect` instead of surfacing a
per-frame failure to the caller. -/
theorem C1_counterexample :
    (render (fun _ => AcquireResult.err SurfaceError.Lost)
        ⟨⟨0, true⟩, 800, 600, PresentMode.Fifo⟩ ⟨1, ⟨[]⟩⟩).outcome =
      RenderOutcome.panicked ∧
    RenderOutcome.panicked ≠ RenderOutcome.frameFailed :=
  ⟨rfl, by simp⟩

/-- C1 amended: on a first acquisition failure of any kind `render`
reconfigures the surface exactly once with the current config and retries
exactly once; a successful retry presents the retried frame; a second
failure panics (it is not surfaced as a per-frame failure); and the result
never depends on any acquisition attempt beyond the second (no third
retry). -/
theorem C1_retry_once (acquire : ℕ → AcquireResult)
    (config : SurfaceConfiguration) (photon : PhotonState) :
    (∀ t, acquire 0 = AcquireResult.ok t →
      render acquire config photon =
        ⟨RenderOutcome.presented t (photon.render_encode (frameDesc t)), []⟩) ∧
    (∀ e t, acquire 0 = AcquireResult.err e →
      acquire 1 = AcquireResult.ok t →
      render acquire config photon =
        ⟨RenderOutcome.presented t (photon.render_encode (frameDesc t)),
          [config]⟩) ∧
    (∀ e₁ e₂, acquire 0 = AcquireResult.err e₁ →
      acquire 1 = AcquireResult.err e₂ →
      render acquire config photon = ⟨RenderOutcome.panicked, [config]⟩) ∧
    (∀ acquire₂ : ℕ → AcquireResult, acquire₂ 0 = acquire 0 →
      acquire₂ 1 = acquire 1 →
      render acquire₂ config photon = render acquire config photon) := by
  refine ⟨?_, ?_, ?_, ?_⟩
  · intro t h0
    simp [render, h0]
  · intro e t h0 h1
    simp [render, h0, h1]
  · intro e₁ e₂ h0 h1
    simp [render, h0, h1]
  · intro acquire₂ h0 h1
    simp only [render, h0, h1]

/-- Witness for C1 amended: both attempts fail, so the call panics after
one reconfiguration. -/
theorem C1_retry_once_witness :
    render (fun _ => AcquireResult.err SurfaceError.Outdated)
        ⟨⟨2, false⟩, 640, 480, PresentMode.Fifo⟩ ⟨3, ⟨[]⟩⟩ =
      ⟨RenderOutcome.panicked, [⟨⟨2, false⟩, 640, 480, PresentMode.Fifo⟩]⟩ :=
  (C1_retry_once (fun _ => AcquireResult.err SurfaceError.Outdated)
    ⟨⟨2, false⟩, 640, 480, PresentMode.Fifo⟩ ⟨3, ⟨[]⟩⟩).2.2.1
    SurfaceError.Outdated SurfaceError.Outdated rfl rfl

/-- C2: the `Resized`/`ScaleFactorChanged` handler ignores the requested
dimensions entirely — its result is the same for every request — and
resets the config to the startup window size clamped to ≥ 1, always
reconfiguring.  At initial size 800×600, a request for 1024×768 leaves the
config at 800×600, and a request with a zero dimension still
reconfigures. -/
theorem C2_resize_ignores_request :
    (∀ size config req₁ req₂,
      handleResized size config req₁ = handleResized size config req₂) ∧
    (handleResized (800, 600) ⟨⟨0, true⟩, 800, 600, PresentMode.Fifo⟩
      (1024, 768)).1.width = 800 ∧
    (handleResized (800, 600) ⟨⟨0, true⟩, 800, 600, PresentMode.Fifo⟩
      (1024, 768)).1.height = 600 ∧
    ¬ (handleResized (800, 600) ⟨⟨0, true⟩, 800, 600, PresentMode.Fifo⟩
      (1024, 768)).1.width = 1024 ∧
    (handleResized (800, 600) ⟨⟨0, true⟩, 800, 600, PresentMode.Fifo⟩
      (0, 600)).2 = true := by
  refine ⟨fun _ _ _ _ => rfl, rfl, rfl, by decide, rfl⟩

/-- C3 fails as stated: the present mode is the hardcoded `Fifo`, not the
first supported present mode.  With `Immediate` listed first among the
supported modes, the built config still carries `Fifo`. -/
theorem C3_counterexample :
    buildSurfaceConfig
        ⟨[⟨7, true⟩], [PresentMode.Immediate, PresentMode.Fifo]⟩ (800, 600) =
      some ⟨⟨7, true⟩, 800, 600, PresentMode.Fifo⟩ ∧
    (⟨[⟨7, true⟩], [PresentMode.Immediate, PresentMode.Fifo]⟩ :
        SurfaceCapabilities).present_modes.head? = some PresentMode.Immediate ∧
    PresentMode.Fifo ≠ PresentMode.Immediate :=
  ⟨rfl, rfl, by simp⟩

/-- C3 amended: the configured format is the first SRGB format when one is
supported, else the first supported format, and the size is the window
size; the present mode, however, is always `Fifo`, regardless of the
supported present-mode list. -/
theorem C3_format_selection (caps : SurfaceCapabilities) (size : ℕ × ℕ)
    (cfg : SurfaceConfiguration)
    (hcfg : buildSurfaceConfig caps size = some cfg) :
    cfg.present_mode = PresentMode.Fifo ∧
    cfg.width = size.1 ∧ cfg.height = size.2 ∧
    ((∃ f ∈ caps.formats, f.is_srgb = true) →
      ∃ pre post, caps.formats = pre ++ cfg.format :: post ∧
        cfg.format.is_srgb = true ∧ ∀ f ∈ pre, f.is_srgb = false) ∧
    ((∀ f ∈ caps.formats, f.is_srgb = false) →
      caps.formats.head? = some cfg.format) := by
  obtain ⟨fmt, hfmt, rfl⟩ :
      ∃ fmt, chooseSurfaceFormat caps.formats = some fmt ∧
        cfg = ⟨fmt, size.1, size.2, PresentMode.Fifo⟩ := by
    unfold buildSurfaceConfig at hcfg
    rcases hchoose : chooseSurfaceFormat caps.formats with _ | fmt
    · rw [hchoose] at hcfg
      simp at hcfg
    · rw [hchoose] at hcfg
      simp only [Option.map_some', Option.some.injEq] at hcfg
      exact ⟨fmt, rfl, hcfg.symm⟩
  refine ⟨rfl, rfl, rfl, ?_, ?_⟩
  · intro hsrgb
    have hfind : caps.formats.find? (fun f => f.is_srgb) = some fmt := by
      unfold chooseSurfaceFormat at hfmt
      rcases hf : caps.formats.find? (fun f => f.is_srgb) with _ | g
      · exfalso
        rw [List.find?_eq_none] at hf
        obtain ⟨f, hfm, hfs⟩ := hsrgb
        exact hf f hfm (by simp [hfs])
      · rw [hf] at hfmt
        simp only [Option.some.injEq] at hfmt
        rw [hf, hfmt]
    exact find?_first (fun f => f.is_srgb) caps.formats fmt hfind
  · intro hnone
    have hfind : caps.formats.find? (fun f => f.is_srgb) = none := by
      rw [List.find?_eq_none]
      intro f hf
      simp [hnone f hf]
    unfold chooseSurfaceFormat at hfmt
    rw [hfind] at hfmt
    exact hfmt.symm ▸ rfl

/-- Witness for C3 amended: a capability list whose second format is the
only SRGB one, with `Immediate` the sole supported present mode. -/
theorem C3_format_selection_witness :
    buildSurfaceConfig ⟨[⟨0, false⟩, ⟨1, true⟩], [PresentMode.Immediate]⟩
        (640, 480) = some ⟨⟨1, true⟩, 640, 480, PresentMode.Fifo⟩ ∧
    (⟨⟨1, true⟩, 640, 480, PresentMode.Fifo⟩ :
        SurfaceConfiguration).present_mode = PresentMode.Fifo :=
  ⟨rfl, (C3_format_selection ⟨[⟨0, false⟩, ⟨1, true⟩], [PresentMode.Immediate]⟩
    (640, 480) ⟨⟨1, true⟩, 640, 480, PresentMode.Fifo⟩ rfl).1⟩

/-- C9: one call to `render_encode` submits exactly one command buffer to
the queue, containing exactly one render pass against the supplied
descriptor in which the fixed pipeline is bound and then a single draw of
vertices `0..3` (3 vertices) and instances `0..1` (1 instance) is issued. -/
theorem C9_render_encode_one_pass (self : PhotonState)
    (render_pass_desc : RenderPassDescriptor) :
    ∃ buf : CommandBuffer,
      (self.render_encode render_pass_desc).queue.submitted =
        self.queue.submitted ++ [buf] ∧
      buf.passes = [(render_pass_desc,
        [PassCmd.setPipeline self.render_pipeline,
         PassCmd.draw (0, 3) (0, 1)])] ∧
      (self.render_encode render_pass_desc).queue.submitted.length =
        self.queue.submitted.length + 1 ∧
      (self.render_encode render_pass_desc).render_pipeline =
        self.render_pipeline := by
  refine ⟨⟨[(render_pass_desc,
    [PassCmd.setPipeline self.render_pipeline,
     PassCmd.draw (0, 3) (0, 1)])]⟩, rfl, rfl, ?_, rfl⟩
  simp [PhotonState.render_encode, Queue.submit, CommandEncoder.finish,
    CommandEncoder.endPass, createCommandEncoder]

/-- C10: the Horizontal conversion reads only the width component of the
window size, and the Vertical conversion reads only the height component. -/
theorem C10_axis_noninterference :
    (∀ v w h₁ h₂, Pixel.to_ndc ⟨v, PixelOrient.Horizontal⟩ (w, h₁) =
      Pixel.to_ndc ⟨v, PixelOrient.Horizontal⟩ (w, h₂)) ∧
    (∀ v w₁ w₂ h, Pixel.to_ndc ⟨v, PixelOrient.Vertical⟩ (w₁, h) =
      Pixel.to_ndc ⟨v, PixelOrient.Vertical⟩ (w₂, h)) := by
  constructor <;> intros <;> rfl

end Photon
